import Mathlib

/-!
Verification of the Highlight-tool grammar compiler.

This file is a shallow embedding of the TypeScript sources of the
Draco-lang Highlight-tool repository:

* the pattern algebra and regex statistics scanner (`pattern.ts`, in the
  revision that exports `IPattern` and `Precedence`, i.e. the revision the
  shipped `textmate.ts` imports from; the repository snapshot also carries
  earlier revisions of the same module);
* the grammar compiler (`textmate.ts`);
* the scope catalog surface (`scope.ts`).

JavaScript `Map` objects are modelled as association lists with JS `Map.set`
update semantics (replace in place, else append); object identity of pattern
nodes, which the source uses as map keys, is modelled by the pattern tree
value itself, so structurally distinct nodes are distinct keys.  Exceptions
are modelled with `Except String`.  The `while` loop of the statistics
scanner and the mutually recursive mode compiler are given a structural fuel
argument; the fuel is a strict upper bound on the number of loop iterations
(each iteration consumes at least one character) resp. on the recursion
depth, so the entry points supply enough fuel for the functions to agree
with the source.
-/

namespace Highlight

/-- A scope that can be highlighted (`scope.ts`): carries one TextMate
scope-suffix string. -/
structure Scope where
  textMateName : String
deriving DecidableEq, Repr

/-- A tag payload value.  In the source, tags are arbitrary objects and the
compiler tests `tag instanceof Scope`; we model scope payloads and opaque
non-scope payloads. -/
inductive Stag where
  | scopeTag (s : Scope)
  | otherTag (k : Nat)
deriving DecidableEq, Repr

/-- The pattern expression tree (`pattern.ts`): one constructor per
`IPattern` implementation class. -/
inductive Pattern where
  | regexP (text : String)
  | altP (first second : Pattern)
  | seqP (first second : Pattern)
  | repP (element : Pattern) (min : Nat) (max : Option Nat)
  | captureP (element : Pattern) (name : String)
  | lookaroundP (element : Pattern) (behind negate : Bool)
  | tagP (element : Pattern) (tags : List Stag)
deriving DecidableEq, Repr

/-- `escapeRegex` from `pattern.ts`: backslash-escape every regex
metacharacter of the class `[.*+?^$\x7b\x7d()|[\]\\]`. -/
def escapeRegex (text : String) : String :=
  String.mk (text.data.foldr
    (fun c acc =>
      if c = '.' ∨ c = '*' ∨ c = '+' ∨ c = '?' ∨ c = '^' ∨ c = '$' ∨
         c = '\x7b' ∨ c = '\x7d' ∨ c = '(' ∨ c = ')' ∨ c = '|' ∨
         c = '[' ∨ c = ']' ∨ c = '\\'
      then '\\' :: c :: acc else c :: acc) [])

-- Association lists with JavaScript `Map` semantics --------------------------

/-- JS `Map.prototype.set`: if the key is present, replace its value in
place; otherwise append the binding at the end. -/
def mapSet [DecidableEq α] (m : List (α × β)) (k : α) (v : β) : List (α × β) :=
  if m.any (fun kv => kv.1 = k) then
    m.map (fun kv => if kv.1 = k then (k, v) else kv)
  else
    m ++ [(k, v)]

/-- JS `Map.prototype.get`. -/
def mapGet [DecidableEq α] (m : List (α × β)) (k : α) : Option β :=
  (m.find? (fun kv => kv.1 = k)).map (fun kv => kv.2)

/-- Insert a list of bindings into a map, one `mapSet` at a time (the body
of the `new Map` constructor and of the copy loops in `mergeMaps`). -/
def mapSetAll [DecidableEq α] (m : List (α × β)) (l : List (α × β)) : List (α × β) :=
  l.foldl (fun acc kv => mapSet acc kv.1 kv.2) m

/-- `mergeMaps` from `pattern.ts`: build a fresh map, insert all bindings of
`m1`, then all bindings of `m2` (later writes win). -/
def mergeMaps [DecidableEq α] (m1 m2 : List (α × β)) : List (α × β) :=
  mapSetAll (mapSetAll [] m1) m2

/-- `extendMap` from `pattern.ts`: `mergeMaps(m, new Map(vs))`. -/
def extendMap [DecidableEq α] (m : List (α × β)) (vs : List (α × β)) : List (α × β) :=
  mergeMaps m (mapSetAll [] vs)

/-- `shiftCaptureGroups` from `pattern.ts`: add `offset` to every value. -/
def shiftCaptureGroups (m : List (Pattern × Nat)) (offset : Nat) : List (Pattern × Nat) :=
  m.map (fun kv => (kv.1, kv.2 + offset))

-- Regex precedences ----------------------------------------------------------

namespace Precedence

def LOWEST : Nat := 0
def ALT : Nat := 0
def SEQ : Nat := 1
def REP : Nat := 2
def GROUP : Nat := 3

end Precedence

-- Regex statistics scanner ----------------------------------------------------

/-- Statistics of a regex (`RegexStats` in `pattern.ts`). -/
structure RegexStats where
  precedence : Nat
  captureGroupCount : Nat
deriving DecidableEq, Repr

/-- One-pass scanner loop of `regexStats`.  Arguments: fuel (a strict bound
on loop iterations — each iteration consumes at least one character, so the
character count suffices), remaining characters, the stack of expected
closers, the tracked precedence, the capture-group count, and whether a
character was already consumed (the `i > 0` tests of the source). -/
def statsLoop : Nat → List Char → List Char → Nat → Nat → Bool → Nat × Nat
  | 0, _, _, prec, capt, _ => (prec, capt)
  | _+1, [], _, prec, capt, _ => (prec, capt)
  | fuel+1, c :: rest, stk, prec, capt, started =>
    -- Grouping; it is only grouping if we are not in a character class
    if c = '(' ∧ stk.head? ≠ some ']' then
      let prec1 := if started ∧ stk.isEmpty then min prec Precedence.SEQ else prec
      match rest with
      | '?' :: rest2 => statsLoop fuel rest2 (')' :: stk) prec1 capt true
      | _ => statsLoop fuel rest (')' :: stk) prec1 (capt + 1) true
    -- Character class
    else if c = '[' then
      let prec1 := if started ∧ stk.isEmpty then min prec Precedence.SEQ else prec
      match rest with
      | ']' :: rest2 => statsLoop fuel rest2 (']' :: stk) prec1 capt true
      | '^' :: ']' :: rest2 => statsLoop fuel rest2 (']' :: stk) prec1 capt true
      | _ => statsLoop fuel rest (']' :: stk) prec1 capt true
    -- Closing constructs
    else if stk.head? = some c then
      statsLoop fuel rest stk.tail prec capt true
    -- Alternation
    else if c = '|' then
      statsLoop fuel rest stk (if stk.isEmpty then min prec Precedence.ALT else prec) capt true
    -- Escaped character
    else if c = '\\' then
      let prec1 := if started ∧ stk.isEmpty then min prec Precedence.SEQ else prec
      statsLoop fuel rest.tail stk prec1 capt true
    -- Repetition
    else if started ∧ (c = '*' ∨ c = '+' ∨ c = '?' ∨ c = '\x7b') then
      let prec1 := if stk.isEmpty then min prec Precedence.REP else prec
      if c = '\x7b' then
        statsLoop fuel (rest.dropWhile (fun d => d ≠ '\x7d')) stk prec1 capt true
      else
        statsLoop fuel rest stk prec1 capt true
    -- Assume raw construct
    else
      let prec1 := if started ∧ stk.isEmpty then min prec Precedence.SEQ else prec
      statsLoop fuel rest stk prec1 capt true

/-- `regexStats` from `pattern.ts` (the revision guarding `(` with
`top() != ']'`). -/
def regexStats (regex : String) : RegexStats :=
  let out := statsLoop regex.data.length regex.data [] Precedence.GROUP 0 false
  { precedence := out.1, captureGroupCount := out.2 }

-- Pattern compilation ---------------------------------------------------------

/-- The result of building a regex (`RegexResult` in `pattern.ts`). -/
structure RegexResult where
  regex : String
  precedence : Nat
  captureGroupCount : Nat
  captureNames : List (String × Pattern)
  captureGroups : List (Pattern × Nat)
  tags : List (Pattern × List Stag)
deriving DecidableEq, Repr

/-- `instanceof CapturePattern`. -/
def Pattern.isCaptureP : Pattern → Bool
  | .captureP _ _ => true
  | _ => false

/-- `contentElement`: Capture, Lookaround and Tag delegate to their element,
every other pattern is its own content element. -/
def contentElement : Pattern → Pattern
  | .captureP element _ => contentElement element
  | .lookaroundP element _ _ => contentElement element
  | .tagP element _ => contentElement element
  | p => p

/-- `groupForPrecedence` from `pattern.ts`: wrap in a non-capturing group if
the required precedence is higher than the precedence of the regex. -/
def groupForPrecedence (regex : RegexResult) (prec : Nat) : RegexResult :=
  if regex.precedence ≥ prec then regex
  else { regex with regex := "(?:" ++ regex.regex ++ ")", precedence := Precedence.GROUP }

/-- `toRegex`: compile a pattern tree bottom-up into a `RegexResult`.
`TagPattern.toRegex` throws when its element is not a capture, hence the
`Except`. -/
def toRegex : Pattern → Except String RegexResult
  | .regexP text =>
    let stats := regexStats text
    .ok { regex := text, precedence := stats.precedence,
          captureGroupCount := stats.captureGroupCount,
          captureNames := [], captureGroups := [], tags := [] }
  | .altP first second =>
    match toRegex first with
    | .error e => .error e
    | .ok ra =>
      match toRegex second with
      | .error e => .error e
      | .ok rb =>
        let a := groupForPrecedence ra Precedence.ALT
        let b := groupForPrecedence rb Precedence.ALT
        .ok { regex := a.regex ++ "|" ++ b.regex,
              precedence := Precedence.ALT,
              captureGroupCount := a.captureGroupCount + b.captureGroupCount,
              captureNames := mergeMaps a.captureNames b.captureNames,
              captureGroups := mergeMaps a.captureGroups
                (shiftCaptureGroups b.captureGroups a.captureGroupCount),
              tags := mergeMaps a.tags b.tags }
  | .seqP first second =>
    match toRegex first with
    | .error e => .error e
    | .ok ra =>
      match toRegex second with
      | .error e => .error e
      | .ok rb =>
        let a := groupForPrecedence ra Precedence.SEQ
        let b := groupForPrecedence rb Precedence.SEQ
        .ok { regex := a.regex ++ b.regex,
              precedence := Precedence.SEQ,
              captureGroupCount := a.captureGroupCount + b.captureGroupCount,
              captureNames := mergeMaps a.captureNames b.captureNames,
              captureGroups := mergeMaps a.captureGroups
                (shiftCaptureGroups b.captureGroups a.captureGroupCount),
              tags := mergeMaps a.tags b.tags }
  | .repP element min max =>
    match toRegex element with
    | .error e => .error e
    | .ok re =>
      let e := groupForPrecedence re Precedence.REP
      let op :=
        match max with
        | none =>
          if min = 0 then "*"
          else if min = 1 then "+"
          else "\x7b" ++ toString min ++ ",\x7d"
        | some mx =>
          if min = 0 ∧ mx = 1 then "?"
          else if min = mx then "\x7b" ++ toString min ++ "\x7d"
          else if min = 0 then "\x7b," ++ toString mx ++ "\x7d"
          else "\x7b" ++ toString min ++ "," ++ toString mx ++ "\x7d"
      .ok { e with regex := e.regex ++ op, precedence := Precedence.REP }
  | .captureP element name =>
    match toRegex element with
    | .error e => .error e
    | .ok re =>
      .ok { regex := "(" ++ re.regex ++ ")",
            precedence := Precedence.GROUP,
            captureGroupCount := re.captureGroupCount + 1,
            captureGroups := extendMap (shiftCaptureGroups re.captureGroups 1)
              [(contentElement element, 1)],
            captureNames := extendMap re.captureNames [(name, contentElement element)],
            tags := re.tags }
  | .lookaroundP element behind negate =>
    match toRegex element with
    | .error e => .error e
    | .ok re =>
      let op := (if behind then "<" else "") ++ (if negate then "!" else "=")
      .ok { re with
            precedence := Precedence.GROUP
            regex := "(?" ++ op ++ re.regex ++ ")" }
  | .tagP element tags =>
    if element.isCaptureP then
      match toRegex element with
      | .error e => .error e
      | .ok re =>
        .ok { re with tags := extendMap re.tags [(contentElement element, tags)] }
    else .error "Tagging requires an underlying capture"

-- Public construction functions of `pattern.ts` -------------------------------

/-- `regex(r)`. -/
def regex (r : String) : Pattern := .regexP r

/-- `literal(l)`. -/
def literal (l : String) : Pattern := .regexP (escapeRegex l)

/-- `cat(...ps)` — `reduce` over a non-empty argument list. -/
def cat (p : Pattern) (ps : List Pattern) : Pattern :=
  ps.foldl .seqP p

/-- `or(...ps)` — `reduce` over a non-empty argument list. -/
def orP (p : Pattern) (ps : List Pattern) : Pattern :=
  ps.foldl .altP p

/-- `rep(p, min, max)`. -/
def rep (p : Pattern) (min : Nat) (max : Option Nat) : Pattern := .repP p min max

/-- `capture(p, name)`. -/
def capture (p : Pattern) (name : String) : Pattern := .captureP p name

/-- `lookahead(p, negate)`. -/
def lookahead (p : Pattern) (negate : Bool := false) : Pattern :=
  .lookaroundP p false negate

/-- `lookbehind(p, negate)`. -/
def lookbehind (p : Pattern) (negate : Bool := false) : Pattern :=
  .lookaroundP p true negate

/-- `tag(p, ...tags)`.  The source reads and increments the module-level
variable `captureCnt` when it auto-wraps a non-capture pattern; we model
that process-wide counter by threading it explicitly: the function receives
the counter value and returns the pattern together with the new counter
value. -/
def tag (p : Pattern) (tags : List Stag) (captureCnt : Nat) : Pattern × Nat :=
  if p.isCaptureP then (.tagP p tags, captureCnt)
  else (.tagP (.captureP p ("tagCapture_" ++ toString captureCnt)) tags, captureCnt + 1)

-- The grammar compiler (`textmate.ts`) ----------------------------------------

mutual

/-- A highlight mode (`Mode` in `textmate.ts`): match mode, surround mode,
sub-repository mode, or reference mode. -/
inductive Mode where
  | matchM (scope : Option Scope) (matchPat : Pattern)
      (captures : Option (List (String × CaptureValue)))
      (contains : Option (List Mode))
  | spanM (scope : Option Scope) (beginPat endPat : Pattern)
      (beginCaptures endCaptures : Option (List (String × CaptureValue)))
      (contains : Option (List Mode))
  | groupM (contains : List Mode)
  | includeM (ref : String)

/-- `CaptureValue = Mode | Scope`. -/
inductive CaptureValue where
  | scopeV (s : Scope)
  | modeV (m : Mode)

end

/-- A repository entry: `Mode | Mode[]`. -/
inductive ModeEntry where
  | one (m : Mode)
  | many (ms : List Mode)

/-- `TextMateGrammar` from `textmate.ts`. -/
structure TextMateGrammar where
  name : String
  scopeName : Option String
  extensions : List String
  modes : List Mode
  repository : Option (List (String × ModeEntry))

/-- A plain JSON-like value modelling the JavaScript objects the compiler
emits (`undef` models a key whose assigned value is `undefined`). -/
inductive TMValue where
  | str (s : String)
  | obj (fields : List (String × TMValue))
  | arr (items : List TMValue)
  | undef

/-- `RegexWithCaptures` from `textmate.ts`. -/
structure RegexWithCaptures where
  regex : String
  captures : Option (List (String × TMValue))

/-- `include(name)` from `textmate.ts` (`include` is reserved in Lean). -/
def includeMode (name : String) : Mode := .includeM ("#" ++ name)

/-- `fixScope`: qualify a scope by the grammar scope name (a JS template
literal renders an `undefined` scope name as the string `undefined`). -/
def fixScope (scope : Scope) (g : TextMateGrammar) : String :=
  scope.textMateName ++ "." ++ (match g.scopeName with
    | some s => s
    | none => "undefined")

/-- `toKebabCase`: lower-case, then replace spaces with dashes. -/
def toKebabCase (text : String) : String :=
  String.mk (text.data.map (fun c => if c.toLower = ' ' then '-' else c.toLower))

/-- `translateGroupName` (local to `compilePattern` in the source): the
reserved name `$all` resolves to `"0"`; any other name is looked up in the
name map of the rule and then in the identity-to-index map; failure throws. -/
def translateGroupName (result : RegexResult) (groupName : String) : Except String String :=
  if groupName = "$all" then .ok "0"
  else
    match mapGet result.captureNames groupName with
    | none => .error ("Unknown capture group " ++ groupName ++ " referenced")
    | some pattern =>
      match mapGet result.captureGroups pattern with
      | none => .error ("Internal error, group " ++ groupName ++ " has no index entry")
      | some groupIndex => .ok (toString groupIndex)

/-- Inner loop of the tag resolution in `compilePattern`: apply the tag list
of one pattern.  The group index is looked up (and the lookup error raised)
once per tag, before the `instanceof Scope` test, exactly as in the
source. -/
def applyTagList (result : RegexResult) (g : TextMateGrammar) (pattern : Pattern) :
    List Stag → List (String × TMValue) → Except String (List (String × TMValue))
  | [], captures => .ok captures
  | t :: rest, captures =>
    match mapGet result.captureGroups pattern with
    | none => .error "Internal error, group has no index entry for tag"
    | some groupIndex =>
      match t with
      | .scopeTag s =>
        applyTagList result g pattern rest
          (mapSet captures (toString groupIndex) (.obj [("name", .str (fixScope s g))]))
      | .otherTag _ => applyTagList result g pattern rest captures

/-- Outer loop of the tag resolution in `compilePattern`: walk the tags map
in insertion order. -/
def applyTags (result : RegexResult) (g : TextMateGrammar) :
    List (Pattern × List Stag) → List (String × TMValue) →
    Except String (List (String × TMValue))
  | [], captures => .ok captures
  | (pattern, ts) :: rest, captures =>
    match applyTagList result g pattern ts captures with
    | .error e => .error e
    | .ok captures2 => applyTags result g rest captures2

/-- Whether a character is a decimal digit (for the `parseInt` model). -/
def jsDigit (c : Char) : Bool := 48 ≤ c.toNat ∧ c.toNat ≤ 57

/-- Accumulate decimal digits, stopping at the first non-digit
(`parseInt` semantics). -/
def takeDigitsAux : List Char → Nat → Nat
  | [], acc => acc
  | c :: rest, acc =>
    if jsDigit c then takeDigitsAux rest (acc * 10 + (c.toNat - 48)) else acc

/-- Parse a leading run of decimal digits; `none` when the first character
is not a digit. -/
def takeDigits : List Char → Option Nat
  | [] => none
  | c :: rest => if jsDigit c then some (takeDigitsAux rest (c.toNat - 48)) else none

/-- JS `parseInt` restricted to base 10: optional sign, leading digits,
`none` for NaN. -/
def parseIntJS (s : String) : Option Int :=
  match s.data with
  | '-' :: rest => (takeDigits rest).map (fun n => -(n : Int))
  | l => (takeDigits l).map (fun n => (n : Int))

/-- The capture-key rewrite of the optimizer:
`(parseInt(idx) - 1).toString()`. -/
def decKey (s : String) : String :=
  match parseIntJS s with
  | some n => toString (n - 1)
  | none => "NaN"

/-- The captures-map rebuild of the optimizer: re-key every entry with
`decKey`, writing into a fresh object in iteration order. -/
def shiftCapturesDown (captures : List (String × TMValue)) : List (String × TMValue) :=
  captures.foldl (fun acc kv => mapSet acc (decKey kv.1) kv.2) []

/-- `r.regex.substring(1, r.regex.length - 1)`: drop the first and last
character (the optimizer only reaches this with a string that starts with
`(` and ends with `)`, so has length at least 2). -/
def elideOuterChars (s : String) : String := String.mk (s.data.drop 1).dropLast

/-- `r.regex.startsWith('(')` (single-character prefix). -/
def strStarts (s : String) (c : Char) : Bool := s.data.head? = some c

/-- `r.regex.endsWith(')')` (single-character suffix). -/
def strEnds (s : String) (c : Char) : Bool := s.data.getLast? = some c

/-- `optimizeRegexWithCaptures` from `textmate.ts`.  The source evaluates
the membership of key 1 in `r.captures` after the two statistics tests; when `r.captures` is
`undefined` that membership test throws a `TypeError`, modelled as an
`Except.error`. -/
def optimizeRegexWithCaptures (r : RegexWithCaptures) : Except String RegexWithCaptures :=
  let stats := regexStats r.regex
  if stats.captureGroupCount ≥ 1 ∧ stats.precedence ≥ Precedence.GROUP then
    match r.captures with
    | none => .error "TypeError: Cannot use in operator to search for 1 in undefined"
    | some caps =>
      if (mapGet caps "1").isSome ∧ strStarts r.regex '(' ∧ strEnds r.regex ')' then
        .ok { regex := elideOuterChars r.regex, captures := some (shiftCapturesDown caps) }
      else .ok r
  else .ok r

mutual

/-- `modeToTextMate` from `textmate.ts` (the non-array cases; array
repository entries are wrapped by `modeEntryToTextMate` below).  The first
argument is structural fuel, a strict upper bound on the recursion depth;
every recursive call goes to a structurally smaller mode component, so any
fuel larger than the nesting depth gives the source behaviour. -/
def modeToTextMate : Nat → Mode → TextMateGrammar → Except String TMValue
  | 0, _, _ => .error "fuel exhausted"
  | _+1, .includeM ref, _ => .ok (.obj [("include", .str ref)])
  | fuel+1, .matchM scope matchPat captures contains, g =>
    match compilePattern fuel matchPat g captures with
    | .error e => .error e
    | .ok rc =>
      let nameFields := match scope with
        | some s => [("name", TMValue.str (fixScope s g))]
        | none => []
      let capsValue := match rc.captures with
        | some caps => TMValue.obj caps
        | none => TMValue.undef
      match contains with
      | none =>
        .ok (.obj (nameFields ++ [("match", .str rc.regex), ("captures", capsValue)]))
      | some ms =>
        match modesToTextMate fuel ms g with
        | .error e => .error e
        | .ok vs =>
          .ok (.obj (nameFields ++ [("match", .str rc.regex), ("captures", capsValue),
            ("patterns", .arr vs)]))
  | fuel+1, .spanM scope beginPat endPat beginCaptures endCaptures contains, g =>
    match compilePattern fuel beginPat g beginCaptures with
    | .error e => .error e
    | .ok rb =>
      match compilePattern fuel endPat g endCaptures with
      | .error e => .error e
      | .ok re =>
        let nameFields := match scope with
          | some s => [("name", TMValue.str (fixScope s g))]
          | none => []
        let bCaps := match rb.captures with
          | some caps => TMValue.obj caps
          | none => TMValue.undef
        let eCaps := match re.captures with
          | some caps => TMValue.obj caps
          | none => TMValue.undef
        let fields := nameFields ++
          [("begin", TMValue.str rb.regex), ("beginCaptures", bCaps),
           ("end", TMValue.str re.regex), ("endCaptures", eCaps)]
        match contains with
        | none => .ok (.obj fields)
        | some ms =>
          match modesToTextMate fuel ms g with
          | .error e => .error e
          | .ok vs => .ok (.obj (fields ++ [("patterns", .arr vs)]))
  | fuel+1, .groupM ms, g =>
    match modesToTextMate fuel ms g with
    | .error e => .error e
    | .ok vs => .ok (.obj [("patterns", .arr vs)])

/-- `contained.map(m => modeToTextMate(m, g))`, left to right. -/
def modesToTextMate : Nat → List Mode → TextMateGrammar → Except String (List TMValue)
  | 0, _, _ => .error "fuel exhausted"
  | _+1, [], _ => .ok []
  | fuel+1, m :: rest, g =>
    match modeToTextMate fuel m g with
    | .error e => .error e
    | .ok v =>
      match modesToTextMate fuel rest g with
      | .error e => .error e
      | .ok vs => .ok (v :: vs)

/-- `compilePattern` from `textmate.ts`: compile the pattern, translate the
author-declared captures, add tag-derived captures, and run the
optimizer. -/
def compilePattern : Nat → Pattern → TextMateGrammar →
    Option (List (String × CaptureValue)) → Except String RegexWithCaptures
  | 0, _, _, _ => .error "fuel exhausted"
  | fuel+1, p, g, existingCaptures =>
    match toRegex p with
    | .error e => .error e
    | .ok result =>
      let afterExisting := match existingCaptures with
        | none => Except.ok []
        | some entries => translateCaptures fuel entries result g []
      match afterExisting with
      | .error e => .error e
      | .ok captures1 =>
        match applyTags result g result.tags captures1 with
        | .error e => .error e
        | .ok captures2 =>
          optimizeRegexWithCaptures
            { regex := result.regex,
              captures := if captures2.isEmpty then none else some captures2 }

/-- The author-declared captures loop of `compilePattern`: translate each
referenced name to its numeric index, then render the value (a scope as a
`name` object, anything else recursively as a mode). -/
def translateCaptures : Nat → List (String × CaptureValue) → RegexResult →
    TextMateGrammar → List (String × TMValue) → Except String (List (String × TMValue))
  | 0, _, _, _, _ => .error "fuel exhausted"
  | _+1, [], _, _, captures => .ok captures
  | fuel+1, (groupName, groupValue) :: rest, result, g, captures =>
    match translateGroupName result groupName with
    | .error e => .error e
    | .ok newGroupName =>
      match groupValue with
      | .scopeV s =>
        translateCaptures fuel rest result g
          (mapSet captures newGroupName (.obj [("name", .str (fixScope s g))]))
      | .modeV m =>
        match modeToTextMate fuel m g with
        | .error e => .error e
        | .ok mv => translateCaptures fuel rest result g (mapSet captures newGroupName mv)

end

/-- The `Array.isArray` wrapper at the head of `modeToTextMate`: an array of
modes is compiled as a grouping mode. -/
def modeEntryToTextMate (fuel : Nat) (e : ModeEntry) (g : TextMateGrammar) :
    Except String TMValue :=
  match e with
  | .one m => modeToTextMate fuel m g
  | .many ms => modeToTextMate fuel (.groupM ms) g

/-- The repository loop of `toTextMate`. -/
def repositoryToTextMate (fuel : Nat) (g : TextMateGrammar) :
    List (String × ModeEntry) → Except String (List (String × TMValue))
  | [] => .ok []
  | (name, e) :: rest =>
    match modeEntryToTextMate fuel e g with
    | .error err => .error err
    | .ok v =>
      match repositoryToTextMate fuel g rest with
      | .error err => .error err
      | .ok vs => .ok ((name, v) :: vs)

/-- The scope-name fill-in at the head of `toTextMate`; the source assigns
the derived name into the grammar object it was passed. -/
def fillScopeName (g : TextMateGrammar) : TextMateGrammar :=
  if g.scopeName = none then { g with scopeName := some (toKebabCase g.name) } else g

/-- `toTextMate` from `textmate.ts`.  The source mutates its argument (it
writes the derived scope name into `g`); the returned pair carries the
compiled JSON value together with the final state of the grammar object.
The `fuel` argument is an artifact of the embedding: it strictly bounds the
recursion depth of the mode compiler, and any value larger than the nesting
depth of the grammar gives the behaviour of the source. -/
def toTextMate (fuel : Nat) (g : TextMateGrammar) : Except String (TMValue × TextMateGrammar) :=
  let g1 := fillScopeName g
  let repo := match g1.repository with
    | none => Except.ok TMValue.undef
    | some entries =>
      match repositoryToTextMate fuel g1 entries with
      | .error e => .error e
      | .ok vs => .ok (TMValue.obj vs)
  match repo with
  | .error e => .error e
  | .ok repoV =>
    match modesToTextMate fuel g1.modes g1 with
    | .error e => .error e
    | .ok pats =>
      .ok (.obj
        [("$schema", .str "https://raw.githubusercontent.com/martinring/tmlanguage/master/tmlanguage.json"),
         ("name", .str g1.name),
         ("scopeName", .str ("source." ++ (match g1.scopeName with
            | some s => s
            | none => "undefined"))),
         ("fileTypes", .arr (g1.extensions.map .str)),
         ("patterns", .arr pats),
         ("repository", repoV)], g1)

-- Lemmas about the map model ---------------------------------------------------

/-- The value of the last binding of `k` in `l` (the binding that survives
when `l` is poured into a fresh JS `Map`). -/
def lastLookup [DecidableEq α] (l : List (α × β)) (k : α) : Option β :=
  (l.reverse.find? (fun kv => kv.1 = k)).map (fun kv => kv.2)

/-- A map has no duplicate keys. -/
def NodupKeys (m : List (α × β)) : Prop := (m.map Prod.fst).Nodup

theorem mapGet_nil [DecidableEq α] (k : α) : mapGet ([] : List (α × β)) k = none := rfl

theorem mapGet_cons [DecidableEq α] (kv : α × β) (m : List (α × β)) (k : α) :
    mapGet (kv :: m) k = if kv.1 = k then some kv.2 else mapGet m k := by
  by_cases h : kv.1 = k
  · simp [mapGet, List.find?_cons_of_pos, h]
  · simp [mapGet, List.find?_cons_of_neg, h]

theorem mapGet_eq_none [DecidableEq α] {m : List (α × β)} {k : α} :
    mapGet m k = none ↔ ∀ kv ∈ m, kv.1 ≠ k := by
  simp [mapGet, List.find?_eq_none]

theorem mapGet_append [DecidableEq α] (m1 m2 : List (α × β)) (k : α) :
    mapGet (m1 ++ m2) k = (mapGet m1 k).or (mapGet m2 k) := by
  simp [mapGet, List.find?_append]
  cases List.find? (fun kv => decide (kv.1 = k)) m1 <;> simp

theorem mapGet_replace_self [DecidableEq α] (m : List (α × β)) (k : α) (v : β) :
    mapGet (m.map (fun kv => if kv.1 = k then (k, v) else kv)) k =
      (mapGet m k).map (fun _ => v) := by
  induction m with
  | nil => rfl
  | cons kv rest ih =>
    by_cases hk : kv.1 = k
    · simp [mapGet_cons, hk]
    · simpa [mapGet_cons, hk] using ih

theorem mapGet_replace_other [DecidableEq α] (m : List (α × β)) (k k' : α) (v : β)
    (h : k' ≠ k) :
    mapGet (m.map (fun kv => if kv.1 = k then (k, v) else kv)) k' = mapGet m k' := by
  have hks : k ≠ k' := fun hh => h (Eq.symm hh)
  induction m with
  | nil => rfl
  | cons kv rest ih =>
    by_cases hk : kv.1 = k
    · have hne : kv.1 ≠ k' := by rw [hk]; exact hks
      simp only [List.map_cons, mapGet_cons, if_pos hk, if_neg hks, if_neg hne, ih]
    · simp only [List.map_cons, mapGet_cons, if_neg hk, ih]

theorem mapGet_mapSet [DecidableEq α] (m : List (α × β)) (k k' : α) (v : β) :
    mapGet (mapSet m k v) k' = if k' = k then some v else mapGet m k' := by
  by_cases hany : m.any (fun kv => kv.1 = k)
  · rw [mapSet, if_pos hany]
    by_cases hk' : k' = k
    · subst hk'
      rw [mapGet_replace_self, if_pos rfl]
      obtain ⟨kv, hmem, hkey⟩ := List.any_eq_true.mp hany
      cases hg : mapGet m k' with
      | none => exact absurd hkey (by simpa using mapGet_eq_none.mp hg kv hmem)
      | some w => rfl
    · rw [mapGet_replace_other m k k' v hk', if_neg hk']
  · rw [mapSet, if_neg hany, mapGet_append]
    have hnone : mapGet m k = none := by
      rw [mapGet_eq_none]
      intro kv hkv hkey
      exact hany (List.any_eq_true.mpr ⟨kv, hkv, by simpa using hkey⟩)
    by_cases hk' : k' = k
    · subst hk'; simp [hnone, mapGet_cons]
    · have hks : k ≠ k' := fun hh => hk' (Eq.symm hh)
      simp only [mapGet_cons, if_neg hks, mapGet_nil, if_neg hk']
      cases hg : mapGet m k' <;> simp

theorem lastLookup_nil [DecidableEq α] (k : α) : lastLookup ([] : List (α × β)) k = none := rfl

theorem lastLookup_cons [DecidableEq α] (kv : α × β) (l : List (α × β)) (k : α) :
    lastLookup (kv :: l) k =
      (lastLookup l k).or (if kv.1 = k then some kv.2 else none) := by
  unfold lastLookup
  rw [List.reverse_cons, List.find?_append]
  by_cases h : kv.1 = k
  · cases hf : List.find? (fun kv => decide (kv.1 = k)) l.reverse <;> simp [h]
  · cases hf : List.find? (fun kv => decide (kv.1 = k)) l.reverse <;> simp [h]

theorem mapGet_mapSetAll [DecidableEq α] (l : List (α × β)) (init : List (α × β)) (k : α) :
    mapGet (mapSetAll init l) k = (lastLookup l k).or (mapGet init k) := by
  induction l generalizing init with
  | nil => simp [mapSetAll, lastLookup_nil]
  | cons kv rest ih =>
    have hstep : mapSetAll init (kv :: rest) = mapSetAll (mapSet init kv.1 kv.2) rest := rfl
    rw [hstep, ih, lastLookup_cons, mapGet_mapSet]
    by_cases h : kv.1 = k
    · rw [if_pos h, if_pos (Eq.symm h)]
      cases lastLookup rest k <;> simp
    · have hks : k ≠ kv.1 := fun hh => h (Eq.symm hh)
      rw [if_neg h, if_neg hks]
      cases lastLookup rest k <;> simp

theorem mapGet_mergeMaps [DecidableEq α] (m1 m2 : List (α × β)) (k : α) :
    mapGet (mergeMaps m1 m2) k = (lastLookup m2 k).or (lastLookup m1 k) := by
  rw [mergeMaps, mapGet_mapSetAll, mapGet_mapSetAll, mapGet_nil]
  cases lastLookup m1 k <;> cases lastLookup m2 k <;> rfl

theorem mapSetAll_nil_single [DecidableEq α] (k : α) (v : β) :
    mapSetAll [] [(k, v)] = [(k, v)] := rfl

theorem mapGet_extendMap_single [DecidableEq α] (m : List (α × β)) (k k' : α) (v : β) :
    mapGet (extendMap m [(k, v)]) k' =
      if k' = k then some v else lastLookup m k' := by
  rw [extendMap, mapSetAll_nil_single, mapGet_mergeMaps, lastLookup_cons, lastLookup_nil]
  by_cases h : k' = k
  · rw [if_pos (Eq.symm h), if_pos h]
    cases lastLookup m k' <;> rfl
  · have hks : k ≠ k' := fun hh => h (Eq.symm hh)
    rw [if_neg hks, if_neg h]
    cases lastLookup m k' <;> rfl

theorem lastLookup_shift (m : List (Pattern × Nat)) (off : Nat) (k : Pattern) :
    lastLookup (shiftCaptureGroups m off) k = (lastLookup m k).map (· + off) := by
  simp only [shiftCaptureGroups, lastLookup, ← List.map_reverse]
  rw [List.find?_map]
  have : ((fun kv : Pattern × Nat => decide (kv.1 = k)) ∘ fun kv : Pattern × Nat => (kv.1, kv.2 + off)) =
      fun kv : Pattern × Nat => decide (kv.1 = k) := rfl
  rw [this]
  cases List.find? (fun kv : Pattern × Nat => decide (kv.1 = k)) m.reverse <;> simp

theorem mapGet_shift (m : List (Pattern × Nat)) (off : Nat) (k : Pattern) :
    mapGet (shiftCaptureGroups m off) k = (mapGet m k).map (· + off) := by
  simp only [shiftCaptureGroups, mapGet]
  rw [List.find?_map]
  have : ((fun kv : Pattern × Nat => decide (kv.1 = k)) ∘ fun kv : Pattern × Nat => (kv.1, kv.2 + off)) =
      fun kv : Pattern × Nat => decide (kv.1 = k) := rfl
  rw [this]
  cases List.find? (fun kv : Pattern × Nat => decide (kv.1 = k)) m <;> simp

theorem lastLookup_eq_none [DecidableEq α] {m : List (α × β)} {k : α} :
    lastLookup m k = none ↔ mapGet m k = none := by
  simp [lastLookup, mapGet, List.find?_eq_none]

theorem lastLookup_eq_mapGet [DecidableEq α] {m : List (α × β)} (h : NodupKeys m) (k : α) :
    lastLookup m k = mapGet m k := by
  induction m with
  | nil => rfl
  | cons kv rest ih =>
    have hcons := List.nodup_cons.mp h
    have hrest : NodupKeys rest := hcons.2
    rw [lastLookup_cons, mapGet_cons, ih hrest]
    by_cases hk : kv.1 = k
    · have hnone : mapGet rest k = none := by
        rw [mapGet_eq_none]
        intro kv2 hkv2 hk2
        have hmem : kv2.1 ∈ rest.map Prod.fst := List.mem_map_of_mem Prod.fst hkv2
        rw [hk2, ← hk] at hmem
        exact hcons.1 hmem
      rw [if_pos hk, if_pos hk, hnone]
      rfl
    · rw [if_neg hk, if_neg hk]
      cases mapGet rest k <;> rfl

theorem nodupKeys_nil : NodupKeys ([] : List (α × β)) := by simp [NodupKeys]

theorem replace_keys [DecidableEq α] (m : List (α × β)) (k : α) (v : β) :
    (m.map (fun kv => if kv.1 = k then (k, v) else kv)).map Prod.fst = m.map Prod.fst := by
  induction m with
  | nil => rfl
  | cons kv rest ih =>
    by_cases hk : kv.1 = k
    · simp [hk, ih]
    · simp [hk, ih]

theorem nodupKeys_mapSet [DecidableEq α] {m : List (α × β)} (h : NodupKeys m) (k : α) (v : β) :
    NodupKeys (mapSet m k v) := by
  by_cases hany : m.any (fun kv => kv.1 = k)
  · rw [mapSet, if_pos hany]
    unfold NodupKeys
    rw [replace_keys]
    exact h
  · rw [mapSet, if_neg hany]
    unfold NodupKeys
    rw [List.map_append]
    rw [List.nodup_append]
    refine ⟨h, by simp, ?_⟩
    intro a ha hb
    simp at hb
    obtain ⟨kv, hkv, hfst⟩ := List.mem_map.mp ha
    apply hany
    rw [List.any_eq_true]
    exact ⟨kv, hkv, by simp [hfst, hb]⟩

theorem nodupKeys_mapSetAll [DecidableEq α] {init : List (α × β)} (h : NodupKeys init)
    (l : List (α × β)) : NodupKeys (mapSetAll init l) := by
  induction l generalizing init with
  | nil => exact h
  | cons kv rest ih => exact ih (nodupKeys_mapSet h kv.1 kv.2)

theorem nodupKeys_mergeMaps [DecidableEq α] (m1 m2 : List (α × β)) :
    NodupKeys (mergeMaps m1 m2) :=
  nodupKeys_mapSetAll (nodupKeys_mapSetAll nodupKeys_nil m1) m2

theorem nodupKeys_extendMap [DecidableEq α] (m vs : List (α × β)) :
    NodupKeys (extendMap m vs) :=
  nodupKeys_mergeMaps m (mapSetAll [] vs)

theorem nodupKeys_shift {m : List (Pattern × Nat)} (h : NodupKeys m) (off : Nat) :
    NodupKeys (shiftCaptureGroups m off) := by
  unfold NodupKeys shiftCaptureGroups
  rw [List.map_map]
  exact h

-- Field-preservation lemmas for `groupForPrecedence` --------------------------

theorem groupForPrecedence_captureGroupCount (r : RegexResult) (p : Nat) :
    (groupForPrecedence r p).captureGroupCount = r.captureGroupCount := by
  rw [groupForPrecedence]; split <;> rfl

theorem groupForPrecedence_captureGroups (r : RegexResult) (p : Nat) :
    (groupForPrecedence r p).captureGroups = r.captureGroups := by
  rw [groupForPrecedence]; split <;> rfl

theorem groupForPrecedence_captureNames (r : RegexResult) (p : Nat) :
    (groupForPrecedence r p).captureNames = r.captureNames := by
  rw [groupForPrecedence]; split <;> rfl

theorem groupForPrecedence_tags (r : RegexResult) (p : Nat) :
    (groupForPrecedence r p).tags = r.tags := by
  rw [groupForPrecedence]; split <;> rfl

theorem groupForPrecedence_regex (r : RegexResult) (p : Nat) :
    (groupForPrecedence r p).regex =
      if r.precedence ≥ p then r.regex else "(?:" ++ r.regex ++ ")" := by
  rw [groupForPrecedence]; split <;> simp_all

-- The bookkeeping maps of every compiled pattern have pairwise distinct keys --

theorem toRegex_nodupKeys : ∀ {p : Pattern} {r : RegexResult}, toRegex p = .ok r →
    NodupKeys r.captureGroups ∧ NodupKeys r.captureNames ∧ NodupKeys r.tags := by
  intro p
  induction p with
  | regexP t =>
    intro r h
    simp only [toRegex] at h
    injection h with h
    subst h
    exact ⟨nodupKeys_nil, nodupKeys_nil, nodupKeys_nil⟩
  | altP f s ihf ihs =>
    intro r h
    simp only [toRegex] at h
    cases hf : toRegex f with
    | error e => rw [hf] at h; exact absurd h (by simp)
    | ok ra =>
      cases hs : toRegex s with
      | error e => rw [hf, hs] at h; exact absurd h (by simp)
      | ok rb =>
        rw [hf, hs] at h
        injection h with h
        subst h
        exact ⟨nodupKeys_mergeMaps _ _, nodupKeys_mergeMaps _ _, nodupKeys_mergeMaps _ _⟩
  | seqP f s ihf ihs =>
    intro r h
    simp only [toRegex] at h
    cases hf : toRegex f with
    | error e => rw [hf] at h; exact absurd h (by simp)
    | ok ra =>
      cases hs : toRegex s with
      | error e => rw [hf, hs] at h; exact absurd h (by simp)
      | ok rb =>
        rw [hf, hs] at h
        injection h with h
        subst h
        exact ⟨nodupKeys_mergeMaps _ _, nodupKeys_mergeMaps _ _, nodupKeys_mergeMaps _ _⟩
  | repP e mn mx ih =>
    intro r h
    simp only [toRegex] at h
    cases he : toRegex e with
    | error err => rw [he] at h; exact absurd h (by simp)
    | ok re =>
      rw [he] at h
      injection h with h
      subst h
      obtain ⟨h1, h2, h3⟩ := ih he
      exact ⟨by rw [groupForPrecedence_captureGroups]; exact h1,
             by rw [groupForPrecedence_captureNames]; exact h2,
             by rw [groupForPrecedence_tags]; exact h3⟩
  | captureP e nm ih =>
    intro r h
    simp only [toRegex] at h
    cases he : toRegex e with
    | error err => rw [he] at h; exact absurd h (by simp)
    | ok re =>
      rw [he] at h
      injection h with h
      subst h
      obtain ⟨h1, h2, h3⟩ := ih he
      exact ⟨nodupKeys_extendMap _ _, nodupKeys_extendMap _ _, h3⟩
  | lookaroundP e bh ng ih =>
    intro r h
    simp only [toRegex] at h
    cases he : toRegex e with
    | error err => rw [he] at h; exact absurd h (by simp)
    | ok re =>
      rw [he] at h
      injection h with h
      subst h
      obtain ⟨h1, h2, h3⟩ := ih he
      exact ⟨h1, h2, h3⟩
  | tagP e ts ih =>
    intro r h
    simp only [toRegex] at h
    by_cases hc : e.isCaptureP
    · rw [if_pos hc] at h
      cases he : toRegex e with
      | error err => rw [he] at h; exact absurd h (by simp)
      | ok re =>
        rw [he] at h
        injection h with h
        subst h
        obtain ⟨h1, h2, h3⟩ := ih he
        exact ⟨h1, h2, nodupKeys_extendMap _ _⟩
    · rw [if_neg hc] at h
      exact absurd h (by simp)

-- Claim theorems ---------------------------------------------------------------

/-- Claim C5: in the statistics scanner, a `(` that is not immediately
followed by `?` is counted as one capture group exactly when the scanner is
not currently inside a character class.  Stated on the scanner loop, where
"inside a character class" is the scanner state whose stack of expected
closers has `]` on top (the state between an unclosed `[` and its closing
`]`): (1) with `]` on top of the stack a `(` is consumed as a plain
character, the count unchanged and nothing pushed; (2) outside a class a
`(` followed by `?` opens a group but is not counted; (3) outside a class a
`(` not followed by `?` opens a group and increments the count by exactly
one.  Three whole-string corollaries pin the same behaviour end to end: the
`(` inside the class `[(]` is never counted, `(?` is never counted, and a
plain `(` is counted once. -/
theorem c5_scanner_class_guard :
    (∀ fuel rest stk prec capt started, stk.head? = some ']' →
        statsLoop (fuel + 1) ('(' :: rest) stk prec capt started =
          statsLoop fuel rest stk prec capt true) ∧
    (∀ fuel rest stk prec capt started, stk.head? ≠ some ']' →
        statsLoop (fuel + 1) ('(' :: '?' :: rest) stk prec capt started =
          statsLoop fuel rest (')' :: stk)
            (if started ∧ stk.isEmpty then min prec Precedence.SEQ else prec) capt true) ∧
    (∀ fuel rest stk prec capt started, stk.head? ≠ some ']' → rest.head? ≠ some '?' →
        statsLoop (fuel + 1) ('(' :: rest) stk prec capt started =
          statsLoop fuel rest (')' :: stk)
            (if started ∧ stk.isEmpty then min prec Precedence.SEQ else prec)
            (capt + 1) true) ∧
    regexStats "[(]" = { precedence := Precedence.GROUP, captureGroupCount := 0 } ∧
    regexStats "(?:a)" = { precedence := Precedence.GROUP, captureGroupCount := 0 } ∧
    regexStats "(a)" = { precedence := Precedence.GROUP, captureGroupCount := 1 } := by
  refine ⟨?_, ?_, ?_, rfl, rfl, rfl⟩
  · intro fuel rest stk prec capt started h
    cases stk with
    | nil => simp at h
    | cons top stk2 =>
      simp at h
      subst h
      simp [statsLoop]
  · intro fuel rest stk prec capt started h
    simp only [statsLoop]
    rw [if_pos (And.intro trivial h)]
  · intro fuel rest stk prec capt started h hq
    cases rest with
    | nil =>
      simp only [statsLoop]
      rw [if_pos (And.intro trivial h)]
    | cons c rest2 =>
      have hc : c ≠ '?' := by
        intro hcq
        rw [hcq] at hq
        simp at hq
      simp only [statsLoop]
      rw [if_pos (And.intro trivial h)]
      split
      · rename_i rest3 heq
        injection heq with h1 h2
        exact absurd h1 hc
      · rfl

/-- Witness for C5: each part of the theorem applied at a concrete scanner
state. -/
theorem c5_witness :
    statsLoop 1 ['('] [']'] 3 0 true = statsLoop 0 [] [']'] 3 0 true ∧
    statsLoop 1 ['(', '?'] [] 3 0 false =
      statsLoop 0 [] [')'] (if false ∧ List.isEmpty ([] : List Char) then min 3 Precedence.SEQ else 3) 0 true ∧
    statsLoop 1 ['('] [] 3 0 false =
      statsLoop 0 [] [')'] (if false ∧ List.isEmpty ([] : List Char) then min 3 Precedence.SEQ else 3) 1 true :=
  ⟨c5_scanner_class_guard.1 0 [] [']'] 3 0 true (by decide),
   c5_scanner_class_guard.2.1 0 [] [] 3 0 false (by decide),
   c5_scanner_class_guard.2.2.1 0 [] [] 3 0 false (by decide) (by decide)⟩

/-- Claim C6: compiling `rep(P, min, max)` parenthesizes the element exactly
when its precedence is below REP, appends the minimal quantifier of the
specification table — `*` for `(0,∞)`, `+` for `(1,∞)`, `{min,}` for
`(min>1,∞)`, `?` for `(0,1)`, `{min}` for `min = max`, `{,max}` for
`(0,max)`, else `{min,max}` — and returns precedence REP with the capture bookkeeping of the
element passed through unchanged. -/
theorem c6_rep_quantifier (P : Pattern) (min : Nat) (max : Option Nat) (rp : RegexResult)
    (h : toRegex P = .ok rp) :
    toRegex (.repP P min max) = .ok
      { regex := (if rp.precedence < Precedence.REP then "(?:" ++ rp.regex ++ ")" else rp.regex) ++
          (match max with
           | none =>
             if min = 0 then "*"
             else if min = 1 then "+"
             else "\x7b" ++ toString min ++ ",\x7d"
           | some mx =>
             if min = 0 ∧ mx = 1 then "?"
             else if min = mx then "\x7b" ++ toString min ++ "\x7d"
             else if min = 0 then "\x7b," ++ toString mx ++ "\x7d"
             else "\x7b" ++ toString min ++ "," ++ toString mx ++ "\x7d"),
        precedence := Precedence.REP,
        captureGroupCount := rp.captureGroupCount,
        captureNames := rp.captureNames,
        captureGroups := rp.captureGroups,
        tags := rp.tags } := by
  by_cases hp : rp.precedence ≥ Precedence.REP
  · rw [show (if rp.precedence < Precedence.REP then "(?:" ++ rp.regex ++ ")" else rp.regex) =
        rp.regex from if_neg (by omega)]
    simp only [toRegex, h, groupForPrecedence, if_pos hp]
  · rw [show (if rp.precedence < Precedence.REP then "(?:" ++ rp.regex ++ ")" else rp.regex) =
        "(?:" ++ rp.regex ++ ")" from if_pos (by omega)]
    simp only [toRegex, h, groupForPrecedence, if_neg hp]

/-- Lookup in the combined index map built by Sequence and Alternation:
entries of the right map appear offset, entries of the left map survive when
their key is not also a key of the right map. -/
theorem mergeShift_lookup {A B : List (Pattern × Nat)} (hA : NodupKeys A)
    (hB : NodupKeys B) (off : Nat) :
    (∀ k v, mapGet B k = some v →
      mapGet (mergeMaps A (shiftCaptureGroups B off)) k = some (v + off)) ∧
    (∀ k v, mapGet A k = some v → mapGet B k = none →
      mapGet (mergeMaps A (shiftCaptureGroups B off)) k = some v) := by
  constructor
  · intro k v hv
    rw [mapGet_mergeMaps, lastLookup_shift, lastLookup_eq_mapGet hB, hv]
    rfl
  · intro k v hv hnone
    rw [mapGet_mergeMaps, lastLookup_shift, lastLookup_eq_mapGet hB, hnone,
      lastLookup_eq_mapGet hA, hv]
    rfl

/-- Claim C2: for all patterns `P`, `Q`, compiling `seq(P, Q)` and
`alt(P, Q)` succeeds and yields capture count
`captureCount(P) + captureCount(Q)`; every index registered in the subtree map of `Q`
appears in the combined map offset by exactly `captureCount(P)`, and
every index registered in the subtree map of `P` is unchanged (for identities not
also registered in the map of `Q` — the source keys these maps by object
identity, so one key on both sides requires physical sharing). -/
theorem c2_seq_alt_offsets (P Q : Pattern) (rp rq : RegexResult)
    (hp : toRegex P = .ok rp) (hq : toRegex Q = .ok rq) :
    ((toRegex (.seqP P Q)).isOk = true ∧
      ∀ rs, toRegex (.seqP P Q) = .ok rs →
        rs.captureGroupCount = rp.captureGroupCount + rq.captureGroupCount ∧
        (∀ k v, mapGet rq.captureGroups k = some v →
          mapGet rs.captureGroups k = some (v + rp.captureGroupCount)) ∧
        (∀ k v, mapGet rp.captureGroups k = some v → mapGet rq.captureGroups k = none →
          mapGet rs.captureGroups k = some v)) ∧
    ((toRegex (.altP P Q)).isOk = true ∧
      ∀ ra, toRegex (.altP P Q) = .ok ra →
        ra.captureGroupCount = rp.captureGroupCount + rq.captureGroupCount ∧
        (∀ k v, mapGet rq.captureGroups k = some v →
          mapGet ra.captureGroups k = some (v + rp.captureGroupCount)) ∧
        (∀ k v, mapGet rp.captureGroups k = some v → mapGet rq.captureGroups k = none →
          mapGet ra.captureGroups k = some v)) := by
  have hpn := (toRegex_nodupKeys hp).1
  have hqn := (toRegex_nodupKeys hq).1
  constructor
  · constructor
    · simp only [toRegex, hp, hq]
      rfl
    · intro rs hrs
      simp only [toRegex, hp, hq] at hrs
      injection hrs with hrs
      subst hrs
      refine ⟨by simp only [groupForPrecedence_captureGroupCount], ?_, ?_⟩
      · intro k v hv
        simp only [groupForPrecedence_captureGroups, groupForPrecedence_captureGroupCount]
        exact (mergeShift_lookup hpn hqn rp.captureGroupCount).1 k v hv
      · intro k v hv hnone
        simp only [groupForPrecedence_captureGroups, groupForPrecedence_captureGroupCount]
        exact (mergeShift_lookup hpn hqn rp.captureGroupCount).2 k v hv hnone
  · constructor
    · simp only [toRegex, hp, hq]
      rfl
    · intro ra hra
      simp only [toRegex, hp, hq] at hra
      injection hra with hra
      subst hra
      refine ⟨by simp only [groupForPrecedence_captureGroupCount], ?_, ?_⟩
      · intro k v hv
        simp only [groupForPrecedence_captureGroups, groupForPrecedence_captureGroupCount]
        exact (mergeShift_lookup hpn hqn rp.captureGroupCount).1 k v hv
      · intro k v hv hnone
        simp only [groupForPrecedence_captureGroups, groupForPrecedence_captureGroupCount]
        exact (mergeShift_lookup hpn hqn rp.captureGroupCount).2 k v hv hnone

/-- Witness for C2: the theorem applied to `seq` and `alt` of the captures
`(a)` named `x` and `(b)` named `y`. -/
theorem c2_witness :
    ((toRegex (.seqP (.captureP (.regexP "a") "x") (.captureP (.regexP "b") "y"))).isOk = true ∧
      ∀ rs, toRegex (.seqP (.captureP (.regexP "a") "x") (.captureP (.regexP "b") "y")) = .ok rs →
        rs.captureGroupCount = 1 + 1 ∧
        (∀ k v, mapGet [((Pattern.regexP "b" : Pattern), 1)] k = some v →
          mapGet rs.captureGroups k = some (v + 1)) ∧
        (∀ k v, mapGet [((Pattern.regexP "a" : Pattern), 1)] k = some v →
          mapGet [((Pattern.regexP "b" : Pattern), 1)] k = none →
          mapGet rs.captureGroups k = some v)) ∧
    ((toRegex (.altP (.captureP (.regexP "a") "x") (.captureP (.regexP "b") "y"))).isOk = true ∧
      ∀ ra, toRegex (.altP (.captureP (.regexP "a") "x") (.captureP (.regexP "b") "y")) = .ok ra →
        ra.captureGroupCount = 1 + 1 ∧
        (∀ k v, mapGet [((Pattern.regexP "b" : Pattern), 1)] k = some v →
          mapGet ra.captureGroups k = some (v + 1)) ∧
        (∀ k v, mapGet [((Pattern.regexP "a" : Pattern), 1)] k = some v →
          mapGet [((Pattern.regexP "b" : Pattern), 1)] k = none →
          mapGet ra.captureGroups k = some v)) :=
  c2_seq_alt_offsets (.captureP (.regexP "a") "x") (.captureP (.regexP "b") "y")
    { regex := "(a)", precedence := 3, captureGroupCount := 1,
      captureNames := [("x", .regexP "a")], captureGroups := [(.regexP "a", 1)], tags := [] }
    { regex := "(b)", precedence := 3, captureGroupCount := 1,
      captureNames := [("y", .regexP "b")], captureGroups := [(.regexP "b", 1)], tags := [] }
    (by rfl) (by rfl)

/-- Claim C3 is false as stated: it requires every subtree index of `P` to
shift up by exactly 1 under `capture(P, n)`, but when `P` drills to the same
content identity as the new capture — `contentElement` delegates through
Capture, Lookaround and Tag wrappers alike — the subtree entry is
overwritten with index 1 instead of shifting to 2.  Concretely,
`capture(regex("a"), "m")` compiles with index map `[(regex "a", 1)]`;
wrapping it again as `capture(capture(regex("a"), "m"), "n")` yields the
index map `[(regex "a", 1)]` — a single binding still at 1, with no binding
shifted to 2, although the compiled text `((a))` has two groups — and
wrapping it through a lookaround as
`capture(lookahead(capture(regex("a"), "m")), "n")` collides the same way,
its `((?=(a)))` carrying the single binding `[(regex "a", 1)]`. -/
theorem c3_counterexample :
    toRegex (.captureP (.regexP "a") "m") = .ok
      { regex := "(a)", precedence := 3, captureGroupCount := 1,
        captureNames := [("m", .regexP "a")],
        captureGroups := [(.regexP "a", 1)], tags := [] } ∧
    toRegex (.captureP (.captureP (.regexP "a") "m") "n") = .ok
      { regex := "((a))", precedence := 3, captureGroupCount := 2,
        captureNames := [("m", .regexP "a"), ("n", .regexP "a")],
        captureGroups := [(.regexP "a", 1)], tags := [] } ∧
    toRegex (.captureP (.lookaroundP (.captureP (.regexP "a") "m") false false) "n") = .ok
      { regex := "((?=(a)))", precedence := 3, captureGroupCount := 2,
        captureNames := [("m", .regexP "a"), ("n", .regexP "a")],
        captureGroups := [(.regexP "a", 1)], tags := [] } :=
  ⟨rfl, rfl, rfl⟩

/-- Claim C3 (amended): compiling `capture(P, n)` yields capture count one
greater than that of `P`, wraps the compiled text of `P` in one pair of parentheses,
reports precedence GROUP, assigns the own identity of the capture index 1 and
registers it under its name, and shifts every subtree index of `P` up by
exactly 1 — except an entry keyed by the content identity of `P` itself,
that is, by the node reached from `P` by drilling through Capture,
Lookaround and Tag wrappers: that entry (present whenever the drilling
chain passes a capture) is overwritten with index 1 of the new capture. -/
theorem c3_amended (P : Pattern) (n : String) (rp : RegexResult)
    (h : toRegex P = .ok rp) :
    (toRegex (.captureP P n)).isOk = true ∧
    ∀ rc, toRegex (.captureP P n) = .ok rc →
      rc.captureGroupCount = rp.captureGroupCount + 1 ∧
      rc.regex = "(" ++ rp.regex ++ ")" ∧
      rc.precedence = Precedence.GROUP ∧
      mapGet rc.captureGroups (contentElement P) = some 1 ∧
      mapGet rc.captureNames n = some (contentElement P) ∧
      (∀ k v, mapGet rp.captureGroups k = some v → k ≠ contentElement P →
        mapGet rc.captureGroups k = some (v + 1)) := by
  have hpn := (toRegex_nodupKeys h).1
  constructor
  · simp only [toRegex, h]
    rfl
  · intro rc hrc
    simp only [toRegex, h] at hrc
    injection hrc with hrc
    subst hrc
    refine ⟨rfl, rfl, rfl, ?_, ?_, ?_⟩
    · rw [mapGet_extendMap_single, if_pos rfl]
    · rw [mapGet_extendMap_single, if_pos rfl]
    · intro k v hv hk
      rw [mapGet_extendMap_single, if_neg hk, lastLookup_shift,
        lastLookup_eq_mapGet hpn, hv]
      rfl

/-- Witness for C3 (amended): the theorem applied to
`capture(seq(a, (b)), "n")`, whose element is not itself a capture. -/
theorem c3_witness :
    (toRegex (.captureP (.seqP (.regexP "a") (.captureP (.regexP "b") "w")) "n")).isOk = true ∧
    ∀ rc, toRegex (.captureP (.seqP (.regexP "a") (.captureP (.regexP "b") "w")) "n") = .ok rc →
      rc.captureGroupCount = 1 + 1 ∧
      rc.regex = "(" ++ "a(b)" ++ ")" ∧
      rc.precedence = Precedence.GROUP ∧
      mapGet rc.captureGroups (contentElement (.seqP (.regexP "a") (.captureP (.regexP "b") "w"))) = some 1 ∧
      mapGet rc.captureNames "n" = some (contentElement (.seqP (.regexP "a") (.captureP (.regexP "b") "w"))) ∧
      (∀ k v, mapGet [((Pattern.regexP "b" : Pattern), 1)] k = some v →
        k ≠ contentElement (.seqP (.regexP "a") (.captureP (.regexP "b") "w")) →
        mapGet rc.captureGroups k = some (v + 1)) :=
  c3_amended (.seqP (.regexP "a") (.captureP (.regexP "b") "w")) "n"
    { regex := "a(b)", precedence := 1, captureGroupCount := 1,
      captureNames := [("w", .regexP "b")], captureGroups := [(.regexP "b", 1)], tags := [] }
    (by rfl)

/-- Claim C4 is false as stated: it promises that any two distinct Capture
nodes sharing one name receive distinct numeric indices without colliding in
the identity-to-index map, but two nested captures named `n` (two distinct
nodes) drill to the same content identity, so the map ends with a single
binding — the two captures collide and share index 1.  The same happens
when a lookaround separates the two captures, since `contentElement`
delegates through lookarounds as well. -/
theorem c4_counterexample :
    (Pattern.captureP (.captureP (.regexP "b") "n") "n" ≠ Pattern.captureP (.regexP "b") "n") ∧
    toRegex (.captureP (.captureP (.regexP "b") "n") "n") = .ok
      { regex := "((b))", precedence := 3, captureGroupCount := 2,
        captureNames := [("n", .regexP "b")],
        captureGroups := [(.regexP "b", 1)], tags := [] } ∧
    (Pattern.captureP (.lookaroundP (.captureP (.regexP "b") "n") false false) "n" ≠
      Pattern.captureP (.regexP "b") "n") ∧
    toRegex (.captureP (.lookaroundP (.captureP (.regexP "b") "n") false false) "n") = .ok
      { regex := "((?=(b)))", precedence := 3, captureGroupCount := 2,
        captureNames := [("n", .regexP "b")],
        captureGroups := [(.regexP "b", 1)], tags := [] } :=
  ⟨by decide, rfl, by decide, rfl⟩

/-- Claim C4 (amended): capture identity — the content element of the
capture, not its name — keys the bookkeeping maps.  Two distinct Capture
nodes that share a name receive distinct numeric indices provided their
content identities differ (chains of Capture, Lookaround and Tag wrappers
all drill to one shared content identity and collide); and every tag
payload is recorded against exactly
the identity under which the Capture it wraps registered its index. -/
theorem c4_amended :
    (∀ (X Y : Pattern) (n : String) (rx ry : RegexResult),
      toRegex X = .ok rx → toRegex Y = .ok ry →
      contentElement X ≠ contentElement Y →
      mapGet ry.captureGroups (contentElement X) = none →
      ∀ rs, toRegex (.seqP (.captureP X n) (.captureP Y n)) = .ok rs →
        mapGet rs.captureGroups (contentElement X) = some 1 ∧
        mapGet rs.captureGroups (contentElement Y) = some (rx.captureGroupCount + 2) ∧
        (1 : Nat) ≠ rx.captureGroupCount + 2) ∧
    (∀ (Z : Pattern) (nm : String) (ts : List Stag) (rz : RegexResult),
      toRegex Z = .ok rz →
      ∀ rt, toRegex (.tagP (.captureP Z nm) ts) = .ok rt →
        mapGet rt.tags (contentElement Z) = some ts ∧
        mapGet rt.captureGroups (contentElement Z) = some 1) := by
  constructor
  · intro X Y n rx ry hx hy hne hnone rs hrs
    have hyn := (toRegex_nodupKeys hy).1
    simp only [toRegex, hx, hy] at hrs
    injection hrs with hrs
    subst hrs
    have hBn : NodupKeys (extendMap (shiftCaptureGroups ry.captureGroups 1)
        [(contentElement Y, 1)]) := nodupKeys_extendMap _ _
    have hAn : NodupKeys (extendMap (shiftCaptureGroups rx.captureGroups 1)
        [(contentElement X, 1)]) := nodupKeys_extendMap _ _
    refine ⟨?_, ?_, by omega⟩
    · simp only [groupForPrecedence_captureGroups, groupForPrecedence_captureGroupCount]
      rw [mapGet_mergeMaps, lastLookup_shift, lastLookup_eq_mapGet hBn,
        mapGet_extendMap_single, if_neg hne, lastLookup_shift,
        lastLookup_eq_mapGet hyn, hnone]
      rw [lastLookup_eq_mapGet hAn, mapGet_extendMap_single, if_pos rfl]
      rfl
    · simp only [groupForPrecedence_captureGroups, groupForPrecedence_captureGroupCount]
      rw [mapGet_mergeMaps, lastLookup_shift, lastLookup_eq_mapGet hBn,
        mapGet_extendMap_single, if_pos rfl]
      simp only [Option.map_some', Option.or, Option.some.injEq]
      omega
  · intro Z nm ts rz hz rt hrt
    simp only [toRegex, Pattern.isCaptureP, if_pos, hz] at hrt
    injection hrt with hrt
    subst hrt
    have hcz : contentElement (Pattern.captureP Z nm) = contentElement Z := rfl
    constructor
    · rw [mapGet_extendMap_single, hcz, if_pos rfl]
    · rw [mapGet_extendMap_single, if_pos rfl]

/-- Witness for C4 (amended): sibling captures of `(a)` and `(b)` both named
`n`, and a tag on `capture(regex("c"), "w")`. -/
theorem c4_witness :
    (∀ rs, toRegex (.seqP (.captureP (.regexP "a") "n") (.captureP (.regexP "b") "n")) = .ok rs →
      mapGet rs.captureGroups (contentElement (.regexP "a")) = some 1 ∧
      mapGet rs.captureGroups (contentElement (.regexP "b")) = some (0 + 2) ∧
      (1 : Nat) ≠ 0 + 2) ∧
    (∀ rt, toRegex (.tagP (.captureP (.regexP "c") "w") [.scopeTag ⟨"kw"⟩]) = .ok rt →
      mapGet rt.tags (contentElement (.regexP "c")) = some [.scopeTag ⟨"kw"⟩] ∧
      mapGet rt.captureGroups (contentElement (.regexP "c")) = some 1) :=
  ⟨c4_amended.1 (.regexP "a") (.regexP "b") "n"
      { regex := "a", precedence := 3, captureGroupCount := 0,
        captureNames := [], captureGroups := [], tags := [] }
      { regex := "b", precedence := 3, captureGroupCount := 0,
        captureNames := [], captureGroups := [], tags := [] }
      (by rfl) (by rfl) (by decide) (by rfl),
   c4_amended.2 (.regexP "c") "w" [.scopeTag ⟨"kw"⟩]
      { regex := "c", precedence := 3, captureGroupCount := 0,
        captureNames := [], captureGroups := [], tags := [] }
      (by rfl)⟩

/-- Witness for C6: the theorem applied to a concrete alternation repeated
with bounds `(2, 5)`, checking the emitted `(?:a|b){2,5}`. -/
theorem c6_witness :
    toRegex (.repP (.altP (.regexP "a") (.regexP "b")) 2 (some 5)) = .ok
      { regex := (if (0 : Nat) < Precedence.REP then "(?:" ++ "a|b" ++ ")" else "a|b") ++
          (if (2 : Nat) = 0 ∧ (5 : Nat) = 1 then "?"
           else if (2 : Nat) = 5 then "\x7b" ++ toString (2 : Nat) ++ "\x7d"
           else if (2 : Nat) = 0 then "\x7b," ++ toString (5 : Nat) ++ "\x7d"
           else "\x7b" ++ toString (2 : Nat) ++ "," ++ toString (5 : Nat) ++ "\x7d"),
        precedence := Precedence.REP,
        captureGroupCount := 0,
        captureNames := [],
        captureGroups := [],
        tags := [] } :=
  c6_rep_quantifier (.altP (.regexP "a") (.regexP "b")) 2 (some 5)
    { regex := "a|b", precedence := 0, captureGroupCount := 0,
      captureNames := [], captureGroups := [], tags := [] } (by rfl)


/-- The unresolved-reference error of `translateGroupName`. -/
theorem translateGroupName_unknown (result : RegexResult) (nm : String)
    (hall : nm ≠ "$all") (hnone : mapGet result.captureNames nm = none) :
    translateGroupName result nm = .error ("Unknown capture group " ++ nm ++ " referenced") := by
  rw [translateGroupName, if_neg hall, hnone]

/-- If the author-declared captures contain a reference whose name has no
compiled capture, the captures loop ends in an error (either that
unresolved-reference error or an earlier failure). -/
theorem translateCaptures_error (result : RegexResult) (g : TextMateGrammar)
    (nm : String) (hall : nm ≠ "$all") (hnone : mapGet result.captureNames nm = none) :
    ∀ (entries : List (String × CaptureValue)) (fuel : Nat) (v : CaptureValue),
      (nm, v) ∈ entries → ∀ acc, ∃ msg, translateCaptures fuel entries result g acc = .error msg := by
  intro entries
  induction entries with
  | nil =>
    intro fuel v hmem
    exact absurd hmem (List.not_mem_nil _)
  | cons e rest ih =>
    intro fuel v hmem acc
    cases fuel with
    | zero => exact ⟨"fuel exhausted", rfl⟩
    | succ fuel =>
      rcases List.mem_cons.mp hmem with heq | hrest
      · rw [← heq]
        refine ⟨"Unknown capture group " ++ nm ++ " referenced", ?_⟩
        simp only [translateCaptures, translateGroupName_unknown result nm hall hnone]
      · cases htr : translateGroupName result e.1 with
        | error msg =>
          refine ⟨msg, ?_⟩
          simp only [translateCaptures, htr]
        | ok key =>
          cases e with
          | mk nm2 v2 =>
            cases v2 with
            | scopeV s =>
              obtain ⟨msg, hmsg⟩ := ih fuel v hrest
                (mapSet acc key (.obj [("name", .str (fixScope s g))]))
              exact ⟨msg, by simp only [translateCaptures, htr, hmsg]⟩
            | modeV m =>
              cases hmode : modeToTextMate fuel m g with
              | error msg =>
                exact ⟨msg, by simp only [translateCaptures, htr, hmode]⟩
              | ok mv =>
                obtain ⟨msg, hmsg⟩ := ih fuel v hrest (mapSet acc key mv)
                exact ⟨msg, by simp only [translateCaptures, htr, hmode, hmsg]⟩

/-- Claim C7: capture-reference resolution maps the reserved name `$all` to
index 0 regardless of the numbering of the rule, maps any other name to the
numeric index of the capture registered under that name, and for a name with
no compiled group raises an error; that error propagates out of
`compilePattern`, out of the surrounding mode, and aborts `toTextMate` for
the whole grammar — the unresolved capture is never silently dropped. -/
theorem c7_capture_resolution :
    (∀ result : RegexResult, translateGroupName result "$all" = .ok "0") ∧
    (∀ (result : RegexResult) (nm : String) (p : Pattern) (idx : Nat),
      nm ≠ "$all" → mapGet result.captureNames nm = some p →
      mapGet result.captureGroups p = some idx →
      translateGroupName result nm = .ok (toString idx)) ∧
    (∀ (result : RegexResult) (nm : String), nm ≠ "$all" →
      mapGet result.captureNames nm = none →
      translateGroupName result nm = .error ("Unknown capture group " ++ nm ++ " referenced")) ∧
    (∀ (fuel : Nat) (p : Pattern) (g : TextMateGrammar)
      (entries : List (String × CaptureValue)) (result : RegexResult)
      (nm : String) (v : CaptureValue),
      toRegex p = .ok result → (nm, v) ∈ entries → nm ≠ "$all" →
      mapGet result.captureNames nm = none →
      ∃ msg, compilePattern (fuel + 1) p g (some entries) = .error msg) ∧
    (∀ (fuel : Nat) (scope : Option Scope) (p : Pattern)
      (caps : Option (List (String × CaptureValue))) (contains : Option (List Mode))
      (g : TextMateGrammar) (msg : String),
      compilePattern fuel p g caps = .error msg →
      modeToTextMate (fuel + 1) (.matchM scope p caps contains) g = .error msg) ∧
    (∀ (fuel : Nat) (g : TextMateGrammar) (s : String) (m : Mode) (msg : String),
      g.scopeName = some s → g.repository = none → g.modes = [m] →
      modeToTextMate fuel m g = .error msg →
      toTextMate (fuel + 1) g = .error msg) := by
  refine ⟨?_, ?_, ?_, ?_, ?_, ?_⟩
  · intro result
    rw [translateGroupName, if_pos rfl]
  · intro result nm p idx hall hname hidx
    rw [translateGroupName, if_neg hall, hname]
    simp only [hidx]
  · intro result nm hall hnone
    exact translateGroupName_unknown result nm hall hnone
  · intro fuel p g entries result nm v hres hmem hall hnone
    obtain ⟨msg, hmsg⟩ := translateCaptures_error result g nm hall hnone entries fuel v hmem []
    exact ⟨msg, by simp only [compilePattern, hres, hmsg]⟩
  · intro fuel scope p caps contains g msg h
    simp only [modeToTextMate, h]
  · intro fuel g s m msg hs hrepo hmodes h
    have hfill : fillScopeName g = g := by
      rw [fillScopeName, if_neg (by rw [hs]; exact fun hh => Option.noConfusion hh)]
    simp only [toTextMate, hfill, hrepo, hmodes, modesToTextMate, h]

/-- Witness for C7: the resolution facts at a concrete rule — the pattern
`(a)` named `x` — with the reserved name, a resolvable name, an unknown
name, and the end-to-end abort of a one-mode grammar. -/
theorem c7_witness :
    translateGroupName
      { regex := "(a)", precedence := 3, captureGroupCount := 1,
        captureNames := [("x", .regexP "a")], captureGroups := [(.regexP "a", 1)],
        tags := [] } "$all" = .ok "0" ∧
    translateGroupName
      { regex := "(a)", precedence := 3, captureGroupCount := 1,
        captureNames := [("x", .regexP "a")], captureGroups := [(.regexP "a", 1)],
        tags := [] } "x" = .ok (toString (1 : Nat)) ∧
    translateGroupName
      { regex := "(a)", precedence := 3, captureGroupCount := 1,
        captureNames := [("x", .regexP "a")], captureGroups := [(.regexP "a", 1)],
        tags := [] } "zzz" = .error ("Unknown capture group " ++ "zzz" ++ " referenced") ∧
    (∃ msg, compilePattern 2
      (.captureP (.regexP "a") "x")
      { name := "L", scopeName := some "lang", extensions := [], modes := [], repository := none }
      (some [("zzz", .scopeV ⟨"kw"⟩)]) = .error msg) ∧
    toTextMate 4
      { name := "L", scopeName := some "lang", extensions := [],
        modes := [.matchM none (.captureP (.regexP "a") "x")
          (some [("zzz", .scopeV ⟨"kw"⟩)]) none],
        repository := none } = .error ("Unknown capture group " ++ "zzz" ++ " referenced") := by
  refine ⟨c7_capture_resolution.1 _,
    c7_capture_resolution.2.1 _ "x" (.regexP "a") 1 (by decide) (by rfl) (by rfl),
    c7_capture_resolution.2.2.1 _ "zzz" (by decide) (by rfl),
    c7_capture_resolution.2.2.2.1 1 _ _ _
      { regex := "(a)", precedence := 3, captureGroupCount := 1,
        captureNames := [("x", .regexP "a")], captureGroups := [(.regexP "a", 1)],
        tags := [] } "zzz" (.scopeV ⟨"kw"⟩) (by rfl) (by simp) (by decide) (by rfl),
    c7_capture_resolution.2.2.2.2.2 3 _ "lang"
      (.matchM none (.captureP (.regexP "a") "x") (some [("zzz", .scopeV ⟨"kw"⟩)]) none)
      ("Unknown capture group " ++ "zzz" ++ " referenced") (by rfl) (by rfl) (by rfl) ?_⟩
  exact c7_capture_resolution.2.2.2.2.1 2 none (.captureP (.regexP "a") "x")
    (some [("zzz", .scopeV ⟨"kw"⟩)]) none _ _ (by rfl)

/-- Claim C10: a pattern that compiles to a regex with at least one capture
group and GROUP precedence, starting with `(` and ending with `)`, but for
which no captures entries were resolved (no author captures and no tags),
makes the optimizer test key 1 of the undefined captures object, so grammar
compilation throws a TypeError instead of returning the compiled mode — in
all three places a mode compiles a pattern: as the match pattern of a Match
mode, as the begin pattern of a Span mode, and as the end pattern of a Span
mode whose begin pattern compiles successfully. -/
theorem c10_typeerror (fuel : Nat) (scope : Option Scope) (p : Pattern)
    (contains : Option (List Mode)) (g : TextMateGrammar) (res : RegexResult)
    (b e : Pattern) (bc ec : Option (List (String × CaptureValue)))
    (rb : RegexWithCaptures)
    (hres : toRegex p = .ok res) (htags : res.tags = [])
    (hcount : (regexStats res.regex).captureGroupCount ≥ 1)
    (hprec : (regexStats res.regex).precedence = Precedence.GROUP)
    (_hstart : strStarts res.regex '(' = true)
    (_hend : strEnds res.regex ')' = true)
    (hbegin : compilePattern (fuel + 1) b g bc = .ok rb) :
    modeToTextMate (fuel + 2) (.matchM scope p none contains) g =
      .error "TypeError: Cannot use in operator to search for 1 in undefined" ∧
    modeToTextMate (fuel + 2) (.spanM scope p e none ec contains) g =
      .error "TypeError: Cannot use in operator to search for 1 in undefined" ∧
    modeToTextMate (fuel + 2) (.spanM scope b p bc none contains) g =
      .error "TypeError: Cannot use in operator to search for 1 in undefined" := by
  have hopt : optimizeRegexWithCaptures { regex := res.regex, captures := none } =
      .error "TypeError: Cannot use in operator to search for 1 in undefined" := by
    rw [optimizeRegexWithCaptures]
    rw [if_pos ⟨hcount, le_of_eq hprec.symm⟩]
  have hcp : compilePattern (fuel + 1) p g none =
      .error "TypeError: Cannot use in operator to search for 1 in undefined" := by
    simp only [compilePattern, hres, htags, applyTags, List.isEmpty, if_true, hopt]
  refine ⟨?_, ?_, ?_⟩
  · simp only [modeToTextMate, hcp]
  · simp only [modeToTextMate, hcp]
  · simp only [modeToTextMate, hbegin, hcp]

/-- Witness for C10: the theorem applied to the bare capture `(a)` with no
captures map and no tags, as the match pattern of a Match mode, as the begin
pattern of a Span mode, and as the end pattern of a Span mode whose begin
pattern `b` compiles to the plain text `b`. -/
theorem c10_witness :
    modeToTextMate 2 (.matchM none (.captureP (.regexP "a") "cw") none none)
      { name := "L", scopeName := some "lang", extensions := [], modes := [], repository := none } =
      .error "TypeError: Cannot use in operator to search for 1 in undefined" ∧
    modeToTextMate 2 (.spanM none (.captureP (.regexP "a") "cw") (.regexP "x") none none none)
      { name := "L", scopeName := some "lang", extensions := [], modes := [], repository := none } =
      .error "TypeError: Cannot use in operator to search for 1 in undefined" ∧
    modeToTextMate 2 (.spanM none (.regexP "b") (.captureP (.regexP "a") "cw") none none none)
      { name := "L", scopeName := some "lang", extensions := [], modes := [], repository := none } =
      .error "TypeError: Cannot use in operator to search for 1 in undefined" :=
  c10_typeerror 0 none (.captureP (.regexP "a") "cw") none
    { name := "L", scopeName := some "lang", extensions := [], modes := [], repository := none }
    { regex := "(a)", precedence := 3, captureGroupCount := 1,
      captureNames := [("cw", .regexP "a")], captureGroups := [(.regexP "a", 1)], tags := [] }
    (.regexP "b") (.regexP "x") none none { regex := "b", captures := none }
    (by rfl) (by rfl) (by decide) (by decide) (by rfl) (by rfl) (by rfl)



/-- Eliding the outer characters of a parenthesized string gives back the
inner string. -/
theorem elide_wrap (t : String) : elideOuterChars ("(" ++ t ++ ")") = t := by
  unfold elideOuterChars
  have hdata : ("(" ++ t ++ ")").data = '(' :: (t.data ++ [')']) := by
    simp [String.data_append]
  rw [hdata]
  simp only [List.drop_succ_cons, List.drop_zero, List.dropLast_concat]

/-- Shifting the empty index map. -/
theorem shiftCaptureGroups_nil (off : Nat) : shiftCaptureGroups [] off = [] := rfl

/-- Extending the empty map with one binding. -/
theorem extendMap_nil_single [DecidableEq α] (k : α) (v : β) :
    extendMap ([] : List (α × β)) [(k, v)] = [(k, v)] := rfl

/-- Extending a one-binding map built from nothing. -/
theorem mapSet_nil [DecidableEq α] (k : α) (v : β) :
    mapSet ([] : List (α × β)) k v = [(k, v)] := rfl

/-- `contentElement` drills through a capture. -/
theorem contentElement_captureP (e : Pattern) (n : String) :
    contentElement (.captureP e n) = contentElement e := rfl

/-- `contentElement` drills through a tag. -/
theorem contentElement_tagP (e : Pattern) (ts : List Stag) :
    contentElement (.tagP e ts) = contentElement e := rfl

/-- Claim C1 is false as stated: elision is not governed by "exactly one
top-level wrapping group that is capture index 1 and carries an assigned
scope".  The pattern `lookahead(capture(regex("a"), "n").tag(S))` compiles
to `(?=(a))` — its single top-level wrapping group is the non-capturing
lookahead construct, not capture 1 (the second character of the compiled
text is `?`) — yet the compiler still elides the outer characters, emitting
the broken match text `?=(a)` with the captures re-keyed to `"0"`. -/
theorem c1_counterexample :
    toRegex (.lookaroundP (.tagP (.captureP (.regexP "a") "n")
        [.scopeTag ⟨"keyword.other"⟩]) false false) = .ok
      { regex := "(?=(a))", precedence := 3, captureGroupCount := 1,
        captureNames := [("n", .regexP "a")],
        captureGroups := [(.regexP "a", 1)],
        tags := [(.regexP "a", [.scopeTag ⟨"keyword.other"⟩])] } ∧
    "(?=(a))".data.get? 1 = some '?' ∧
    modeToTextMate 5
      (.matchM none (.lookaroundP (.tagP (.captureP (.regexP "a") "n")
        [.scopeTag ⟨"keyword.other"⟩]) false false) none none)
      { name := "L", scopeName := some "lang", extensions := [], modes := [],
        repository := none } =
      .ok (.obj [("match", .str "?=(a)"),
        ("captures", .obj [("0", .obj [("name", .str "keyword.other.lang")])])]) :=
  ⟨rfl, rfl, rfl⟩

/-- Claim C1 (amended): the optimizer is a syntactic heuristic — it elides
the outer characters and re-keys every capture index down by one exactly
when the scanned text reports at least one capture group at precedence
GROUP, the captures object has an entry under key `"1"` (whatever its
value), and the text starts with `(` and ends with `)`; the outer group need
not itself be the capture (it can be non-capturing, as the counterexample
shows).  In the intended case, a Match mode whose pattern is exactly
`capture(X, n).tag(S)` — with X contributing no bookkeeping of its own and
the wrapped text scanning as one capture group at GROUP precedence — emits a
match regex equal to the own compiled text of X and a captures map keyed `"0"`. -/
theorem c1_amended :
    (∀ (r : RegexWithCaptures) (caps : List (String × TMValue)), r.captures = some caps →
      (((regexStats r.regex).captureGroupCount ≥ 1 ∧
        (regexStats r.regex).precedence ≥ Precedence.GROUP ∧
        ((mapGet caps "1").isSome = true ∧
         strStarts r.regex '(' = true ∧ strEnds r.regex ')' = true)) →
        optimizeRegexWithCaptures r =
          .ok { regex := elideOuterChars r.regex,
                captures := some (shiftCapturesDown caps) }) ∧
      (¬((regexStats r.regex).captureGroupCount ≥ 1 ∧
         (regexStats r.regex).precedence ≥ Precedence.GROUP ∧
         ((mapGet caps "1").isSome = true ∧
          strStarts r.regex '(' = true ∧ strEnds r.regex ')' = true)) →
        optimizeRegexWithCaptures r = .ok r)) ∧
    (∀ (fuel : Nat) (X : Pattern) (nm : String) (s : Scope) (g : TextMateGrammar)
      (rx : RegexResult),
      toRegex X = .ok rx → rx.tags = [] → rx.captureGroups = [] →
      (regexStats ("(" ++ rx.regex ++ ")")).captureGroupCount ≥ 1 →
      (regexStats ("(" ++ rx.regex ++ ")")).precedence ≥ Precedence.GROUP →
      strStarts ("(" ++ rx.regex ++ ")") '(' = true →
      strEnds ("(" ++ rx.regex ++ ")") ')' = true →
      modeToTextMate (fuel + 2)
        (.matchM none (.tagP (.captureP X nm) [.scopeTag s]) none none) g =
        .ok (.obj [("match", .str rx.regex),
          ("captures", .obj [("0", .obj [("name", .str (fixScope s g))])])])) := by
  have hA : ∀ (r : RegexWithCaptures) (caps : List (String × TMValue)),
      r.captures = some caps →
      (((regexStats r.regex).captureGroupCount ≥ 1 ∧
        (regexStats r.regex).precedence ≥ Precedence.GROUP ∧
        ((mapGet caps "1").isSome = true ∧
         strStarts r.regex '(' = true ∧ strEnds r.regex ')' = true)) →
        optimizeRegexWithCaptures r =
          .ok { regex := elideOuterChars r.regex,
                captures := some (shiftCapturesDown caps) }) ∧
      (¬((regexStats r.regex).captureGroupCount ≥ 1 ∧
         (regexStats r.regex).precedence ≥ Precedence.GROUP ∧
         ((mapGet caps "1").isSome = true ∧
          strStarts r.regex '(' = true ∧ strEnds r.regex ')' = true)) →
        optimizeRegexWithCaptures r = .ok r) := by
    intro r caps hcaps
    constructor
    · intro hcond
      rw [optimizeRegexWithCaptures, if_pos ⟨hcond.1, hcond.2.1⟩, hcaps]
      exact if_pos hcond.2.2
    · intro hcond
      by_cases h12 : (regexStats r.regex).captureGroupCount ≥ 1 ∧
          (regexStats r.regex).precedence ≥ Precedence.GROUP
      · have h345 : ¬((mapGet caps "1").isSome = true ∧
            strStarts r.regex '(' = true ∧ strEnds r.regex ')' = true) :=
          fun hc => hcond ⟨h12.1, h12.2, hc⟩
        rw [optimizeRegexWithCaptures, if_pos h12, hcaps]
        exact if_neg h345
      · rw [optimizeRegexWithCaptures, if_neg h12]
  refine ⟨hA, ?_⟩
  intro fuel X nm s g rx hx htags hgroups hcount hprec hstart hend
  have htag : toRegex (.tagP (.captureP X nm) [.scopeTag s]) = .ok
      { regex := "(" ++ rx.regex ++ ")", precedence := Precedence.GROUP,
        captureGroupCount := rx.captureGroupCount + 1,
        captureGroups := [(contentElement X, 1)],
        captureNames := extendMap rx.captureNames [(nm, contentElement X)],
        tags := [(contentElement X, [.scopeTag s])] } := by
    simp only [toRegex, Pattern.isCaptureP, if_pos, hx, htags, hgroups,
      shiftCaptureGroups_nil, extendMap_nil_single, contentElement_captureP,
      contentElement_tagP]
  have happ : applyTags
      { regex := "(" ++ rx.regex ++ ")", precedence := Precedence.GROUP,
        captureGroupCount := rx.captureGroupCount + 1,
        captureGroups := [(contentElement X, 1)],
        captureNames := extendMap rx.captureNames [(nm, contentElement X)],
        tags := [(contentElement X, [.scopeTag s])] } g
      [(contentElement X, [.scopeTag s])] [] =
      .ok [("1", .obj [("name", .str (fixScope s g))])] := by
    have hmg : mapGet [(contentElement X, (1 : Nat))] (contentElement X) = some 1 := by
      rw [mapGet_cons, if_pos rfl]
    simp only [applyTags, applyTagList, hmg, mapSet_nil]
    rfl
  have hopt : optimizeRegexWithCaptures
      { regex := "(" ++ rx.regex ++ ")",
        captures := some [("1", .obj [("name", .str (fixScope s g))])] } =
      .ok { regex := rx.regex,
            captures := some [("0", .obj [("name", .str (fixScope s g))])] } := by
    have := (hA { regex := "(" ++ rx.regex ++ ")",
                  captures := some [("1", .obj [("name", .str (fixScope s g))])] }
      [("1", .obj [("name", .str (fixScope s g))])] rfl).1
      ⟨hcount, hprec, rfl, hstart, hend⟩
    rw [this, elide_wrap]
    rfl
  have hcp : compilePattern (fuel + 1)
      (.tagP (.captureP X nm) [.scopeTag s]) g none =
      .ok { regex := rx.regex,
            captures := some [("0", .obj [("name", .str (fixScope s g))])] } := by
    simp only [compilePattern, htag, happ, List.isEmpty]
    exact hopt
  simp only [modeToTextMate, hcp]
  rfl

/-- Witness for C1 (amended): both directions of the optimizer
characterization at concrete inputs, and the intended `capture(X, "n").tag(S)`
Match mode for `X = regex("ab")`. -/
theorem c1_witness :
    (optimizeRegexWithCaptures { regex := "(ab)", captures := some [("1", .str "v")] } =
      .ok { regex := elideOuterChars "(ab)",
            captures := some (shiftCapturesDown [("1", .str "v")]) }) ∧
    (optimizeRegexWithCaptures { regex := "ab", captures := some [("1", .str "v")] } =
      .ok { regex := "ab", captures := some [("1", .str "v")] }) ∧
    modeToTextMate 2
      (.matchM none (.tagP (.captureP (.regexP "ab") "n") [.scopeTag ⟨"kw"⟩]) none none)
      { name := "L", scopeName := some "lang", extensions := [], modes := [],
        repository := none } =
      .ok (.obj [("match", .str "ab"),
        ("captures", .obj [("0", .obj [("name", .str
          (fixScope ⟨"kw"⟩
            { name := "L", scopeName := some "lang", extensions := [],
              modes := [], repository := none }))])])]) :=
  ⟨(c1_amended.1 { regex := "(ab)", captures := some [("1", .str "v")] }
      [("1", .str "v")] rfl).1 (by decide),
   (c1_amended.1 { regex := "ab", captures := some [("1", .str "v")] }
      [("1", .str "v")] rfl).2 (by decide),
   c1_amended.2 0 (.regexP "ab") "n" ⟨"kw"⟩
     { name := "L", scopeName := some "lang", extensions := [], modes := [],
       repository := none }
     { regex := "ab", precedence := 1, captureGroupCount := 0,
       captureNames := [], captureGroups := [], tags := [] }
     (by rfl) (by rfl) (by rfl) (by decide) (by decide) (by rfl) (by rfl)⟩

/-- Claim C8 is false as stated: `toTextMate` does mutate the grammar object
— when `scopeName` is absent it writes the derived kebab-case name into the
grammar it was passed — and pattern construction does touch process-wide
mutable state beyond the scope catalog: `tag` on a non-capture pattern
increments the module-level counter `captureCnt` to name the implicit
capture it synthesizes. -/
theorem c8_counterexample :
    (tag (.regexP "a") [.scopeTag ⟨"kw"⟩] 0).2 = 1 ∧
    (tag (.regexP "a") [.scopeTag ⟨"kw"⟩] 0).1 =
      .tagP (.captureP (.regexP "a") "tagCapture_0") [.scopeTag ⟨"kw"⟩] ∧
    toTextMate 5
      { name := "My Lang", scopeName := none, extensions := [],
        modes := [], repository := none } =
      .ok (.obj
        [("$schema", .str "https://raw.githubusercontent.com/martinring/tmlanguage/master/tmlanguage.json"),
         ("name", .str "My Lang"),
         ("scopeName", .str "source.my-lang"),
         ("fileTypes", .arr []),
         ("patterns", .arr []),
         ("repository", .undef)],
        { name := "My Lang", scopeName := some "my-lang", extensions := [],
          modes := [], repository := none }) ∧
    (some "my-lang" : Option String) ≠ (none : Option String) :=
  ⟨rfl, rfl, rfl, by decide⟩

/-- Claim C8 (amended): the only mutation `toTextMate` performs on its
inputs is writing the derived scope name into the grammar object when it is
absent — the grammar state it returns is exactly `fillScopeName` of its
input — and the only process-wide mutable state pattern construction touches
beyond the scope catalog is the implicit-capture counter, which `tag`
increments exactly when the tagged pattern is not already a capture. -/
theorem c8_amended :
    (∀ (fuel : Nat) (g : TextMateGrammar) (out : TMValue) (g2 : TextMateGrammar),
      toTextMate fuel g = .ok (out, g2) → g2 = fillScopeName g) ∧
    (∀ (p : Pattern) (ts : List Stag) (cnt : Nat),
      (tag p ts cnt).2 = if p.isCaptureP then cnt else cnt + 1) := by
  constructor
  · intro fuel g out g2 h
    simp only [toTextMate] at h
    cases hrepo : (fillScopeName g).repository with
    | none =>
      simp only [hrepo] at h
      cases hpats : modesToTextMate fuel (fillScopeName g).modes (fillScopeName g) with
      | error e =>
        simp only [hpats] at h
        exact Except.noConfusion h
      | ok pats =>
        simp only [hpats] at h
        injection h with h
        injection h with h1 h2
        exact h2.symm
    | some entries =>
      simp only [hrepo] at h
      cases hr : repositoryToTextMate fuel (fillScopeName g) entries with
      | error e =>
        simp only [hr] at h
        exact Except.noConfusion h
      | ok vs =>
        simp only [hr] at h
        cases hpats : modesToTextMate fuel (fillScopeName g).modes (fillScopeName g) with
        | error e =>
          simp only [hpats] at h
          exact Except.noConfusion h
        | ok pats =>
          simp only [hpats] at h
          injection h with h
          injection h with h1 h2
          exact h2.symm
  · intro p ts cnt
    by_cases hc : p.isCaptureP <;> simp [tag, hc]

/-- Witness for C8 (amended): the returned grammar of a concrete compilation
equals `fillScopeName` of the input, and the counter behaviour of `tag` at a
capture pattern. -/
theorem c8_witness :
    ({ name := "W", scopeName := some "w", extensions := [], modes := [],
        repository := none } : TextMateGrammar) =
      fillScopeName
        { name := "W", scopeName := some "w", extensions := [],
          modes := [], repository := none } ∧
    (tag (.captureP (.regexP "z") "q") [.otherTag 0] 7).2 =
      if (Pattern.captureP (.regexP "z") "q").isCaptureP then 7 else 7 + 1 :=
  ⟨c8_amended.1 5
    { name := "W", scopeName := some "w", extensions := [], modes := [],
      repository := none }
    (.obj
      [("$schema", .str "https://raw.githubusercontent.com/martinring/tmlanguage/master/tmlanguage.json"),
       ("name", .str "W"),
       ("scopeName", .str "source.w"),
       ("fileTypes", .arr []),
       ("patterns", .arr []),
       ("repository", .undef)])
    { name := "W", scopeName := some "w", extensions := [], modes := [],
      repository := none } (by rfl),
   c8_amended.2 (.captureP (.regexP "z") "q") [.otherTag 0] 7⟩

/-- Claim C9 is false as stated: a grammar whose derived scope name is empty
does not abort compilation.  The grammar named `""` derives the empty scope
name (`toKebabCase "" = ""`) and compiles without error to a grammar object
whose `scopeName` is the malformed `"source."`. -/
theorem c9_counterexample :
    toKebabCase "" = "" ∧
    toTextMate 5
      { name := "", scopeName := none, extensions := [], modes := [],
        repository := none } =
      .ok (.obj
        [("$schema", .str "https://raw.githubusercontent.com/martinring/tmlanguage/master/tmlanguage.json"),
         ("name", .str ""),
         ("scopeName", .str "source."),
         ("fileTypes", .arr []),
         ("patterns", .arr []),
         ("repository", .undef)],
        { name := "", scopeName := some "", extensions := [], modes := [],
          repository := none }) :=
  ⟨rfl, rfl⟩

/-- Claim C9 (amended): compiling a grammar whose derived scope name is
empty performs no validation and never aborts for that reason; it silently
emits the malformed scope name `"source."` (shown here for grammars with no
modes and no repository, where no other failure can intervene). -/
theorem c9_amended (fuel : Nat) (g : TextMateGrammar)
    (hname : toKebabCase g.name = "") (hscope : g.scopeName = none)
    (hrepo : g.repository = none) (hmodes : g.modes = []) :
    toTextMate (fuel + 1) g = .ok (.obj
      [("$schema", .str "https://raw.githubusercontent.com/martinring/tmlanguage/master/tmlanguage.json"),
       ("name", .str g.name),
       ("scopeName", .str "source."),
       ("fileTypes", .arr (g.extensions.map .str)),
       ("patterns", .arr []),
       ("repository", .undef)],
      { g with scopeName := some "" }) := by
  have hfill : fillScopeName g = { g with scopeName := some "" } := by
    rw [fillScopeName, if_pos hscope, hname]
  simp only [toTextMate, hfill, hrepo, hmodes, modesToTextMate]
  rfl

/-- Witness for C9 (amended): the theorem applied to the grammar named `""`
with one file extension. -/
theorem c9_witness :
    toTextMate 1
      { name := "", scopeName := none, extensions := ["dr"],
        modes := [], repository := none } = .ok (.obj
      [("$schema", .str "https://raw.githubusercontent.com/martinring/tmlanguage/master/tmlanguage.json"),
       ("name", .str ""),
       ("scopeName", .str "source."),
       ("fileTypes", .arr (["dr"].map .str)),
       ("patterns", .arr []),
       ("repository", .undef)],
      { name := "", scopeName := some "", extensions := ["dr"], modes := [],
        repository := none }) :=
  c9_amended 0
    { name := "", scopeName := none, extensions := ["dr"],
      modes := [], repository := none } (by rfl) (by rfl) (by rfl) (by rfl)


end Highlight
